import Mathlib

/-!
# Verification of the pspace CLI's configuration resolver and log-stream controller

This file is a shallow embedding, in Lean 4, of the core of the `pspace`
command-line client (`src/pspace/pspace.py` and `src/pspace/cli.py`): the
four-layer configuration merge (`get_cmd_config`), the paged log fetcher
(`get_log_lines`), the follow loop (`follow_log`), the snapshot/follow tail
driver (`print_last_log_lines`, `command_tail`), the job-state predicates,
the state-filter matcher of the `jobs` command, and the RunState persistence
gate (`save_last_info`).

Modelling conventions:
- Python values flowing through configuration dictionaries are modelled by
  the inductive `Val`; Python `None` is `Val.null`.
- Python dicts read from YAML or argparse are association lists
  (`Dict`, `Doc`) with first-match lookup (`dlookup`); the inputs the code
  reads have no duplicate keys.
- Remote calls (`paperspace.jobs.show/logs`) are oracles supplied by an
  environment structure; each call site in the Python maps to one oracle
  consultation, indexed by the poll iteration at which it happens.
- `while` loops are fuel-indexed recursions returning `Option`:
  `Option.none` means the fuel ran out, `some` carries an `Outcome` that is
  either a normal result (`Outcome.ok`) or an uncaught Python exception
  such as `KeyError` (`Outcome.crash`).
- Timestamps are abstract instants (`Int` time-units); the ISO string
  parsing of `parse_jobinfo_dt` is out of scope, `dtFinished` is carried
  already parsed.
- Print side effects relevant to the claims are returned as data (the list
  of printed log lines); purely cosmetic prints are dropped.
-/

namespace Pspace

/-- A Python value as it appears in pspace's configuration dictionaries.
`null` is Python `None`. -/
inductive Val : Type where
  | null : Val
  | str (s : String) : Val
  | int (n : Int) : Val
  | bool (b : Bool) : Val
  | list (l : List Val) : Val

/-- A Python dict with string keys, as an association list. -/
abbrev Dict := List (String × Val)

/-- A two-level Python dict (a parsed YAML document: section name to
key/value section). -/
abbrev Doc := List (String × Dict)

/-- First-match association-list lookup; the model of `d[k]` /
`d.get(k)` on the duplicate-free dicts the code reads. -/
def dlookup {α : Type} : List (String × α) → String → Option α
  | [], _ => Option.none
  | (k, v) :: rest, key => if key = k then some v else dlookup rest key

/-- `CMD_ARG_DEFAULTS` from `pspace.py`: per command, per option, the pair
(actual command default, `newyaml` init default). -/
def CMD_ARG_DEFAULTS : List (String × List (String × (Val × Val))) :=
  [ ("create",
      [ ("commands", (Val.null, Val.list [Val.str "echo hello world"])),
        ("container",
          (Val.str "tensorflow/tensorflow-python:latest",
           Val.str "tensorflow/tensorflow-python:latest")),
        ("machineType", (Val.str "K80", Val.str "K80")),
        ("ignoreFiles", (Val.null, Val.list [Val.str "ignore1", Val.str "ignore2"])) ]),
    ("tail",
      [ ("follow", (Val.bool false, Val.bool false)),
        ("last", (Val.str "all", Val.int 20)) ]),
    ("getart",
      [ ("destdir", (Val.str "data", Val.str "data")) ]),
    ("jobs",
      [ ("last", (Val.null, Val.null)),
        ("utc", (Val.bool false, Val.bool false)) ]),
    ("status",
      [ ("utc", (Val.bool false, Val.bool false)) ]) ]

/-- `CMD_ARG_DEFAULTS.get(cmd, {}).get(argkey, [None])[0]`: the built-in
default for an option of a command, `None` when not listed. -/
def cmdDefault (cmd argkey : String) : Val :=
  match dlookup ((dlookup CMD_ARG_DEFAULTS cmd).getD []) argkey with
  | some d => d.1
  | Option.none => Val.null

/-- `args_to_pspacelast` from `get_cmd_config`: config keys backed by a
(section, key) of the persisted RunState. -/
def args_to_pspacelast : List (String × (String × String)) :=
  [ ("job_id", ("job_info", "id")),
    ("total_log_lines", ("pspace_info", "total_log_lines")),
    ("last_job_id", ("pspace_info", "last_job_id")) ]

/-- `get_yaml_cwd`: try each search path in order; on the first file that
opens, return its parsed content (which may itself be `None` for an empty
file) and stop; `IOError` moves on to the next path. `files` holds, per
search path, `Option.none` for an unreadable file and `some parsed`
otherwise. -/
def get_yaml_cwd : List (Option (Option Doc)) → Option Doc
  | [] => Option.none
  | f :: rest =>
    match f with
    | some parsed => parsed
    | Option.none => get_yaml_cwd rest

/-- `get_yaml_config(subcommand)`: the subcommand's section of the project
config file, `{}` when the file or the section is absent. -/
def get_yaml_config (files : List (Option (Option Doc))) (subcommand : String) : Dict :=
  match get_yaml_cwd files with
  | Option.none => []
  | some doc =>
    match dlookup doc subcommand with
    | some sec => sec
    | Option.none => []

/-- The per-key body of `get_cmd_config`'s loop: start from the built-in
default, then overwrite in turn from the RunState mapping (when the key is
mapped and the lookup does not raise `KeyError`), the YAML section, and the
invocation arguments (only when present and not `None`). -/
def resolveKey (yaml_config : Dict) (pspace_last : Doc) (args_dict : Dict)
    (cmd argkey : String) : Val :=
  let v0 := cmdDefault cmd argkey
  let v1 :=
    match dlookup args_to_pspacelast argkey with
    | some pq =>
      match (dlookup pspace_last pq.1).bind (fun sec => dlookup sec pq.2) with
      | some v => v
      | Option.none => v0
    | Option.none => v0
  let v2 :=
    match dlookup yaml_config argkey with
    | some v => v
    | Option.none => v1
  match dlookup args_dict argkey with
  | some v =>
    match v with
    | Val.null => v2
    | _ => v
  | Option.none => v2

/-- `get_cmd_config(args, extra_keys)`. `cmd` is the popped `pspace_cmd`
attribute and `args_dict` the remaining argparse namespace; `pspace_last`
is the loaded RunState document (`{}` when the state file is unreadable). -/
def get_cmd_config (files : List (Option (Option Doc))) (pspace_last : Doc)
    (cmd : String) (args_dict : Dict) (extra_keys : List String) : Dict :=
  let yaml_config := get_yaml_config files cmd
  (args_dict.map Prod.fst ++ extra_keys).map
    (fun argkey => (argkey, resolveKey yaml_config pspace_last args_dict cmd argkey))

/-- The four configuration layers, lowest priority first. -/
inductive CfgLayer : Type where
  | builtin : CfgLayer
  | runstate : CfgLayer
  | yamlcfg : CfgLayer
  | invocation : CfgLayer
deriving DecidableEq

/-- Priority of a layer; higher wins. -/
def CfgLayer.prio : CfgLayer → Nat
  | .builtin => 0
  | .runstate => 1
  | .yamlcfg => 2
  | .invocation => 3

/-- What each layer contributes for a key: `some v` when the layer is set
there, `Option.none` when it is unset.  The built-in layer is always set
(possibly to `Val.null`); the RunState layer is set only for the mapped
keys whose section/key lookup succeeds; the invocation layer is set only
when the argument is present and not `None`. -/
def layerVal (L : CfgLayer) (yaml_config : Dict) (pspace_last : Doc)
    (args_dict : Dict) (cmd argkey : String) : Option Val :=
  match L with
  | .builtin => some (cmdDefault cmd argkey)
  | .runstate =>
    (dlookup args_to_pspacelast argkey).bind
      (fun pq => (dlookup pspace_last pq.1).bind (fun sec => dlookup sec pq.2))
  | .yamlcfg => dlookup yaml_config argkey
  | .invocation =>
    match dlookup args_dict argkey with
    | some Val.null => Option.none
    | some v => some v
    | Option.none => Option.none

/-- Looking a key up in a dict built by mapping a resolver over a key list
yields the resolver's value. -/
theorem dlookup_map_self {f : String → Val} :
    ∀ (keys : List String) (k : String), k ∈ keys →
      dlookup (keys.map (fun x => (x, f x))) k = some (f k) := by
  intro keys
  induction keys with
  | nil => intro k hk; cases hk
  | cons x xs ih =>
    intro k hk
    by_cases hkx : k = x
    · subst hkx; simp [dlookup]
    · rcases List.mem_cons.mp hk with h | h
      · exact absurd h hkx
      · simp [dlookup, hkx, ih k h]

/-- Core precedence fact about `resolveKey`: if a layer is set for a key
and every higher-priority layer is unset there, the resolved value is that
layer's value. -/
theorem resolveKey_layer (y : Dict) (pl : Doc) (a : Dict) (cmd k : String)
    (L : CfgLayer) (v : Val)
    (hset : layerVal L y pl a cmd k = some v)
    (hunset : ∀ L', L.prio < L'.prio → layerVal L' y pl a cmd k = Option.none) :
    resolveKey y pl a cmd k = v := by
  have hinv : ∀ w, dlookup a k = some w → (L.prio < 3 → w = Val.null) := by
    intro w hw hlt
    have := hunset .invocation (by simpa [CfgLayer.prio] using hlt)
    simp only [layerVal] at this
    cases w with
    | null => rfl
    | str s => rw [hw] at this; exact absurd this (by simp)
    | int n => rw [hw] at this; exact absurd this (by simp)
    | bool b => rw [hw] at this; exact absurd this (by simp)
    | list l => rw [hw] at this; exact absurd this (by simp)
  cases L with
  | builtin =>
    have hy := hunset .yamlcfg (by decide)
    have hr := hunset .runstate (by decide)
    simp only [layerVal] at hset hy hr
    have hv : cmdDefault cmd k = v := by simpa using hset
    cases hb : dlookup args_to_pspacelast k with
    | none =>
      cases ha : dlookup a k with
      | none => simp [resolveKey, hy, hb, ha, hv]
      | some w =>
        have := hinv w ha (by decide)
        subst this
        simp [resolveKey, hy, hb, ha, hv]
    | some pq =>
      rw [hb] at hr
      simp only [Option.some_bind] at hr
      cases ha : dlookup a k with
      | none => simp [resolveKey, hy, hb, hr, ha, hv]
      | some w =>
        have := hinv w ha (by decide)
        subst this
        simp [resolveKey, hy, hb, hr, ha, hv]
  | runstate =>
    have hy := hunset .yamlcfg (by decide)
    simp only [layerVal] at hset hy
    cases hb : dlookup args_to_pspacelast k with
    | none => rw [hb] at hset; simp at hset
    | some pq =>
      rw [hb] at hset
      simp only [Option.some_bind] at hset
      cases ha : dlookup a k with
      | none => simp [resolveKey, hy, hb, hset, ha]
      | some w =>
        have := hinv w ha (by decide)
        subst this
        simp [resolveKey, hy, hb, hset, ha]
  | yamlcfg =>
    simp only [layerVal] at hset
    cases ha : dlookup a k with
    | none => simp [resolveKey, hset, ha]
    | some w =>
      have := hinv w ha (by decide)
      subst this
      simp [resolveKey, hset, ha]
  | invocation =>
    simp only [layerVal] at hset
    cases ha : dlookup a k with
    | none => rw [ha] at hset; simp at hset
    | some w =>
      rw [ha] at hset
      cases w with
      | null => simp at hset
      | str s =>
        simp only [Option.some.injEq] at hset
        subst hset
        simp [resolveKey, ha]
      | int n =>
        simp only [Option.some.injEq] at hset
        subst hset
        simp [resolveKey, ha]
      | bool b =>
        simp only [Option.some.injEq] at hset
        subst hset
        simp [resolveKey, ha]
      | list l =>
        simp only [Option.some.injEq] at hset
        subst hset
        simp [resolveKey, ha]

/-- C1: Config resolution precedence: for every command and every key, the
resolved value is determined by consulting the four layers from lowest to
highest priority (built-in default, RunState-derived value for the mapped
keys, project config file value, explicit invocation value when not
unset); if a layer is set for a key and every higher-priority layer is
unset for that key, the value `get_cmd_config` resolves for that key is
that layer's value, each layer fully overwriting the one below it. -/
theorem c1_config_precedence
    (files : List (Option (Option Doc))) (pspace_last : Doc) (args_dict : Dict)
    (cmd : String) (extra_keys : List String) (k : String) (L : CfgLayer) (v : Val)
    (hmem : k ∈ args_dict.map Prod.fst ++ extra_keys)
    (hset : layerVal L (get_yaml_config files cmd) pspace_last args_dict cmd k = some v)
    (hunset : ∀ L', L.prio < L'.prio →
      layerVal L' (get_yaml_config files cmd) pspace_last args_dict cmd k = Option.none) :
    dlookup (get_cmd_config files pspace_last cmd args_dict extra_keys) k = some v := by
  unfold get_cmd_config
  rw [dlookup_map_self _ k hmem]
  exact congrArg some (resolveKey_layer _ _ _ _ _ _ _ hset hunset)

/-- Witness for C1, the spec's own concrete instance: built-in default
`machineType="K80"`, RunState absent, project file section sets
`machineType="P4000"`, invocation unset; the resolved value is `"P4000"`. -/
theorem c1_config_precedence_witness :
    dlookup
      (get_cmd_config
        [some (some [("create", [("machineType", Val.str "P4000")])]), Option.none]
        [] "create" [("machineType", Val.null)] [])
      "machineType" = some (Val.str "P4000") := by
  refine c1_config_precedence _ _ _ _ _ _ CfgLayer.yamlcfg _ ?_ ?_ ?_
  · simp
  · rfl
  · intro L' h
    cases L' with
    | builtin => exact absurd h (by decide)
    | runstate => exact absurd h (by decide)
    | yamlcfg => exact absurd h (by decide)
    | invocation => rfl

/-- `s.startswith(p)`, computed on the underlying character lists so that
it evaluates by kernel reduction. -/
def strStartsWith (s p : String) : Bool :=
  p.data.isPrefixOf s.data

/-- Whitespace recognized by Python's `str.strip()` (the subset relevant
here). -/
def isPySpace (c : Char) : Bool :=
  c == ' ' || c == '\t' || c == '\n' || c == '\r'

/-- Python `str.strip()`: the character list with surrounding whitespace
removed. -/
def pyStrip (s : String) : List Char :=
  ((s.data.dropWhile isPySpace).reverse.dropWhile isPySpace).reverse

/-- Digit-list parsing used by `pyInt`: at least one character, all decimal
digits. -/
def digitsToNat (l : List Char) : Option Nat :=
  if l.isEmpty then Option.none
  else if l.all Char.isDigit then
    some (l.foldl (fun a c => a * 10 + (c.toNat - 48)) 0)
  else Option.none

/-- Python `int()` applied to a string: surrounding whitespace stripped,
optional sign, then decimal digits.  `Option.none` is `ValueError`. -/
def pyInt (s : String) : Option Int :=
  match pyStrip s with
  | '-' :: rest => (digitsToNat rest).map (fun n => -(n : Int))
  | '+' :: rest => (digitsToNat rest).map (fun n => (n : Int))
  | l => (digitsToNat l).map (fun n => (n : Int))

/-- The `last`-option normalization at the top of `command_tail` (cli.py
lines 206-214): on a string value, `startswith('a') or startswith('A')`
selects the "all" sentinel and yields `0`; on a non-string the
`AttributeError` is swallowed; then `int(...)` is applied.  `Option.none`
is an uncaught exception: `ValueError` on a non-numeric string,
`TypeError` on `None` or a list. -/
def parse_tail_last (v : Val) : Option Int :=
  match v with
  | Val.str s =>
    if strStartsWith s "a" || strStartsWith s "A" then some 0 else pyInt s
  | Val.int n => some n
  | Val.bool b => some (if b then 1 else 0)
  | Val.null => Option.none
  | Val.list _ => Option.none

/-- C9: for the tail command, every string value of the `last` option whose
first character is `a` or `A` — not only the literal `"all"` — is treated
as the "all" sentinel and resolves the trailing count to `0`; any other
string value must parse as an integer or the command faults
(`parse_tail_last` returns `Option.none`). -/
theorem c9_last_option_a_sentinel :
    (∀ s : String, (strStartsWith s "a" || strStartsWith s "A") = true →
        parse_tail_last (Val.str s) = some 0)
    ∧ (∀ s : String, (strStartsWith s "a" || strStartsWith s "A") = false →
        parse_tail_last (Val.str s) = pyInt s)
    ∧ parse_tail_last (Val.str "all") = some 0
    ∧ parse_tail_last (Val.str "avocado") = some 0
    ∧ parse_tail_last (Val.str "Apple") = some 0
    ∧ parse_tail_last (Val.str "20") = some 20
    ∧ parse_tail_last (Val.str "xyz") = Option.none
    ∧ (∀ n : Int, parse_tail_last (Val.int n) = some n) := by
  refine ⟨?_, ?_, by decide, by decide, by decide, by decide, by decide, fun n => rfl⟩
  · intro s h; simp [parse_tail_last, h]
  · intro s h; simp [parse_tail_last, h]

/-- Witness for C9: the sentinel branch fires on `"always"` (first char
`a`), and the integer branch fires on `"30"`. -/
theorem c9_last_option_a_sentinel_witness :
    parse_tail_last (Val.str "always") = some 0
    ∧ parse_tail_last (Val.str "30") = pyInt "30" :=
  ⟨c9_last_option_a_sentinel.1 "always" (by decide),
   (c9_last_option_a_sentinel.2.1 "30" (by decide))⟩

/-- `VALID_JOB_STATES` from cli.py. -/
def VALID_JOB_STATES : List String :=
  ["Pending", "Provisioned", "Running", "Stopped", "Error", "Failed", "Cancelled"]

/-- The state-filter normalization and match of `command_jobs` (cli.py
lines 181-186): upper-case the first character, keep the rest of the
string unchanged, and take the first canonical state having the result as
a prefix.  `Option.none` is an uncaught `IndexError` (empty input, or no
canonical state matches). -/
def command_jobs_state (s : String) : Option String :=
  match s.data with
  | [] => Option.none
  | c :: rest =>
    (VALID_JOB_STATES.filter
      (fun x => (c.toUpper :: rest).isPrefixOf x.data)).head?

/-- Modelled from the spec: "State filter arguments (job run-state names)
are matched case-insensitively against the canonical enum list by prefix
of the capitalized form, taking the first match" — a genuinely
case-insensitive prefix match over `VALID_JOB_STATES`. -/
def state_filter_ci (s : String) : Option String :=
  (VALID_JOB_STATES.filter
    (fun x => (s.data.map Char.toLower).isPrefixOf (x.data.map Char.toLower))).head?

/-- C6 (code bug evaluation): the claimed case-insensitive matching fails
on the code.  On input `"STOP"` a case-insensitive prefix match resolves
to `"Stopped"`, but the code's first-character-only normalization leaves
`"STOP"`, which is a prefix of no canonical state, so the `[0]` indexing
raises `IndexError`.  The spec's all-lowercase examples `"stop"` and
`"run"` do resolve as claimed. -/
theorem c6_state_filter_not_case_insensitive :
    command_jobs_state "STOP" = Option.none
    ∧ state_filter_ci "STOP" = some "Stopped"
    ∧ command_jobs_state "stop" = some "Stopped"
    ∧ command_jobs_state "run" = some "Running"
    ∧ command_jobs_state "Stop" = some "Stopped" := by
  refine ⟨?_, ?_, ?_, ?_, ?_⟩ <;> decide

/-- Python `==` between a resolved config value and a job-id string:
equal exactly when the value is the same string (`None == str` and
`int == str` are `False`). -/
def valEqStr (v : Val) (s : String) : Bool :=
  match v with
  | Val.str s2 => s2 = s
  | _ => false

/-- The first-fetch-offset computation of `command_tail` (cli.py lines
221-224): `line_start = 0`, then when the requested count is nonzero and
the resolved `total_log_lines` is not `None` and the resolved
`last_job_id` equals the job id, `line_start = max(0, total_log_lines -
tail_lines)`.  `Option.none` is a `TypeError` (a non-integer
`total_log_lines` reaching the subtraction). -/
def command_tail_line_start (tail_lines : Int) (total_v last_v : Val)
    (job_id : String) : Option Int :=
  if tail_lines ≠ 0 then
    if (match total_v with | Val.null => false | _ => true)
        && valEqStr last_v job_id then
      match total_v with
      | Val.int t => some (max 0 (t - tail_lines))
      | _ => Option.none
    else some 0
  else some 0

/-- C3: for every tail invocation with a nonzero requested tail count, if
the persisted RunState holds `last_job_id` equal to the requested job id
and a non-null `total_log_lines`, the first fetch offset is
`max(0, total_log_lines - tail_lines)`; if `last_job_id` differs from the
requested job id, or no RunState exists, the offset is `0`.  The resolved
values are wired through `resolveKey`, i.e. through `get_cmd_config`'s
per-key resolution, under the (actual) side conditions that neither the
project file's tail section nor the invocation arguments supply those two
keys. -/
theorem c3_resume_offset
    (y : Dict) (pl : Doc) (a : Dict) (ps : Dict) (t : Int) (j job_id : String)
    (tail_lines : Int)
    (hyt : dlookup y "total_log_lines" = Option.none)
    (hyl : dlookup y "last_job_id" = Option.none)
    (hat : dlookup a "total_log_lines" = Option.none)
    (hal : dlookup a "last_job_id" = Option.none)
    (htl : tail_lines ≠ 0) :
    (dlookup pl "pspace_info" = some ps →
      dlookup ps "total_log_lines" = some (Val.int t) →
      dlookup ps "last_job_id" = some (Val.str j) →
      (j = job_id →
        command_tail_line_start tail_lines
          (resolveKey y pl a "tail" "total_log_lines")
          (resolveKey y pl a "tail" "last_job_id") job_id
          = some (max 0 (t - tail_lines)))
      ∧ (j ≠ job_id →
        command_tail_line_start tail_lines
          (resolveKey y pl a "tail" "total_log_lines")
          (resolveKey y pl a "tail" "last_job_id") job_id = some 0))
    ∧ (pl = [] →
      command_tail_line_start tail_lines
        (resolveKey y pl a "tail" "total_log_lines")
        (resolveKey y pl a "tail" "last_job_id") job_id = some 0) := by
  constructor
  · intro hp hpt hpj
    have hm1 : dlookup args_to_pspacelast "total_log_lines"
        = some ("pspace_info", "total_log_lines") := rfl
    have hm2 : dlookup args_to_pspacelast "last_job_id"
        = some ("pspace_info", "last_job_id") := rfl
    have hrt : resolveKey y pl a "tail" "total_log_lines" = Val.int t := by
      simp [resolveKey, hm1, hp, hpt, hyt, hat]
    have hrj : resolveKey y pl a "tail" "last_job_id" = Val.str j := by
      simp [resolveKey, hm2, hp, hpj, hyl, hal]
    rw [hrt, hrj]
    constructor
    · intro hj
      subst hj
      simp [command_tail_line_start, valEqStr, htl]
    · intro hj
      simp [command_tail_line_start, valEqStr, htl, hj]
  · intro hpl
    subst hpl
    have hrt : resolveKey y [] a "tail" "total_log_lines" = Val.null := by
      simp [resolveKey, hyt, hat]
      rfl
    rw [hrt]
    simp [command_tail_line_start, htl]

/-- Witness for C3, the spec's own concrete instance: persisted
`(last_job_id="abc", total_log_lines=100)` and a tail request for job
`"abc"` with `last=20` give first offset `80`; for job `"xyz"` the offset
is `0`; with no RunState the offset is `0`. -/
theorem c3_resume_offset_witness :
    command_tail_line_start 20
      (resolveKey []
        [("pspace_info", [("total_log_lines", Val.int 100), ("last_job_id", Val.str "abc")])]
        [] "tail" "total_log_lines")
      (resolveKey []
        [("pspace_info", [("total_log_lines", Val.int 100), ("last_job_id", Val.str "abc")])]
        [] "tail" "last_job_id") "abc" = some 80
    ∧ command_tail_line_start 20
      (resolveKey []
        [("pspace_info", [("total_log_lines", Val.int 100), ("last_job_id", Val.str "abc")])]
        [] "tail" "total_log_lines")
      (resolveKey []
        [("pspace_info", [("total_log_lines", Val.int 100), ("last_job_id", Val.str "abc")])]
        [] "tail" "last_job_id") "xyz" = some 0
    ∧ command_tail_line_start 20
      (resolveKey [] [] [] "tail" "total_log_lines")
      (resolveKey [] [] [] "tail" "last_job_id") "abc" = some 0 := by
  have habc := (c3_resume_offset []
      [("pspace_info", [("total_log_lines", Val.int 100), ("last_job_id", Val.str "abc")])]
      [] [("total_log_lines", Val.int 100), ("last_job_id", Val.str "abc")]
      100 "abc" "abc" 20 rfl rfl rfl rfl (by decide)).1 rfl rfl rfl
  have hxyz := (c3_resume_offset []
      [("pspace_info", [("total_log_lines", Val.int 100), ("last_job_id", Val.str "abc")])]
      [] [("total_log_lines", Val.int 100), ("last_job_id", Val.str "abc")]
      100 "abc" "xyz" 20 rfl rfl rfl rfl (by decide)).1 rfl rfl rfl
  have hnone := (c3_resume_offset [] [] []
      [("total_log_lines", Val.int 100), ("last_job_id", Val.str "abc")]
      100 "abc" "abc" 20 rfl rfl rfl rfl (by decide)).2 rfl
  refine ⟨?_, ?_, hnone⟩
  · rw [habc.1 rfl]
    norm_num
  · exact hxyz.2 (by decide)

/-- The model of a `job_info` dict returned by `paperspace.jobs.show`,
restricted to the fields the core reads.  A missing dict key is
`Option.none`; `dtFinished` is an abstract instant (the timestamp already
parsed, in time-units); `error` is the `{status, message}` sub-record. -/
structure JobInfo : Type where
  id : String
  state : Option String
  dtFinished : Option Int
  error : Option (String × String)

instance : Inhabited JobInfo := ⟨⟨"", Option.none, Option.none, Option.none⟩⟩

/-- `job_not_started`: `job_info['state'] in ['Pending', 'Provisioned']`.
`Option.none` is the `KeyError` raised when the record has no `state`. -/
def job_not_started (ji : JobInfo) : Option Bool :=
  ji.state.map (fun s => decide (s = "Pending" ∨ s = "Provisioned"))

/-- `job_started`: `not job_not_started(...)`. -/
def job_started (ji : JobInfo) : Option Bool :=
  (job_not_started ji).map (fun b => !b)

/-- `job_done`: `job_info['state'] in ['Stopped', 'Cancelled', 'Failed',
'Error']`. -/
def job_done (ji : JobInfo) : Option Bool :=
  ji.state.map
    (fun s => decide (s = "Stopped" ∨ s = "Cancelled" ∨ s = "Failed" ∨ s = "Error"))

/-- `seconds_since_done(job_info)` evaluated at clock instant `now`:
`now - dtFinished`, or `Option.none` for the `KeyError` raised when the
record has no `dtFinished`. -/
def seconds_since_done (ji : JobInfo) (now : Int) : Option Int :=
  ji.dtFinished.map (fun f => now - f)

/-- Result of a fuel-stepped piece of the Python: a normal value, or an
uncaught exception (`KeyError`). -/
inductive Outcome (α : Type) : Type where
  | ok (a : α) : Outcome α
  | crash : Outcome α

/-- Sequencing in the `Option (Outcome _)` model: exhausted fuel and
exceptions propagate. -/
def obind {α β : Type} (x : Option (Outcome α)) (f : α → Option (Outcome β)) :
    Option (Outcome β) :=
  match x with
  | Option.none => Option.none
  | some Outcome.crash => some Outcome.crash
  | some (Outcome.ok a) => f a

/-- One element of a `paperspace.jobs.logs` page. -/
structure LogEntry : Type where
  line : Int
  timestamp : String
  message : String
deriving DecidableEq

/-- The paging loop of `get_log_lines` (pspace.py lines 322-341): keep
asking `fetch` from an offset advanced by exactly the length of each
returned page, extending the accumulated output, until an empty page.
`fetch o` models `paperspace.jobs.logs({'jobId': ..., 'line': o})`.
`Option.none` means the fuel ran out. -/
def get_log_lines_go (fetch : Nat → List LogEntry) :
    Nat → Nat → List LogEntry → Option (List LogEntry)
  | 0, _, _ => Option.none
  | fuel + 1, line_start, log_output =>
    let new_log_output := fetch line_start
    if new_log_output.isEmpty then some (log_output ++ new_log_output)
    else
      get_log_lines_go fetch fuel (line_start + new_log_output.length)
        (log_output ++ new_log_output)

/-- `get_log_lines(job_id, line_start)`: the paging loop started on an
empty accumulator, then `[x['message'] for x in log_output]`. -/
def get_log_lines (fetch : Nat → List LogEntry) (fuel : Nat) (line_start : Nat) :
    Option (List String) :=
  (get_log_lines_go fetch fuel line_start []).map (fun l => l.map LogEntry.message)

/-- One unfolding step of the paging loop. -/
theorem get_log_lines_go_succ (fetch : Nat → List LogEntry) (fuel line_start : Nat)
    (log_output : List LogEntry) :
    get_log_lines_go fetch (fuel + 1) line_start log_output =
      if (fetch line_start).isEmpty then some (log_output ++ fetch line_start)
      else
        get_log_lines_go fetch fuel (line_start + (fetch line_start).length)
          (log_output ++ fetch line_start) := rfl

/-- The paging loop, run against an honest remote log `L` (every page is a
prefix of what remains, and a page is empty only when nothing remains),
accumulates exactly the remaining entries. -/
theorem get_log_lines_go_spec (L : List LogEntry) (fetch : Nat → List LogEntry)
    (hpre : ∀ o, fetch o = (L.drop o).take (fetch o).length)
    (hempty : ∀ o, fetch o = [] → L.length ≤ o) :
    ∀ (fuel ls : Nat) (acc : List LogEntry), L.length ≤ ls + fuel →
      get_log_lines_go fetch (fuel + 1) ls acc = some (acc ++ L.drop ls) := by
  intro fuel
  induction fuel with
  | zero =>
    intro ls acc h
    have hdrop : L.drop ls = [] := List.drop_eq_nil_of_le (by omega)
    have hfe : fetch ls = [] := by rw [hpre ls, hdrop]; simp
    simp [get_log_lines_go, hfe, hdrop]
  | succ g ih =>
    intro ls acc h
    by_cases hfe : fetch ls = []
    · have hdrop : L.drop ls = [] := List.drop_eq_nil_of_le (hempty ls hfe)
      simp [get_log_lines_go, hfe, hdrop]
    · have hlen : 1 ≤ (fetch ls).length := List.length_pos.mpr hfe
      have hbound : (fetch ls).length ≤ (L.drop ls).length := by
        conv_lhs => rw [hpre ls]
        exact (List.length_take _ _).le.trans (min_le_right _ _)
      have hrec := ih (ls + (fetch ls).length) (acc ++ fetch ls) (by omega)
      have hemp : (fetch ls).isEmpty = false := by
        cases hc : fetch ls with
        | nil => exact absurd hc hfe
        | cons a l => rfl
      rw [get_log_lines_go_succ, hemp]
      simp only [Bool.false_eq_true, if_false]
      rw [hrec, List.append_assoc]
      have hjoin : fetch ls ++ L.drop (ls + (fetch ls).length) = L.drop ls := by
        have hp := hpre ls
        obtain ⟨n, hn⟩ : ∃ n, (fetch ls).length = n := ⟨_, rfl⟩
        rw [hn] at hp
        rw [hn, hp]
        exact List.drop_take_append_drop L ls n
      rw [hjoin]

/-- C4: paging completeness: for every log source that returns at most `K`
lines per call, each returned page being a prefix of the lines remaining
past the requested offset and an empty page occurring only at the end of
the log, `get_log_lines` starting from `line_start` advances the offset by
exactly the length of each page, terminates on the first empty page
(within `L.length + 1` iterations), and returns the messages of the full
remaining sequence in order, with no duplicates and no gaps. -/
theorem c4_paging_complete (L : List LogEntry) (K : Nat) (fetch : Nat → List LogEntry)
    (hpre : ∀ o, fetch o = (L.drop o).take (fetch o).length)
    (hcap : ∀ o, (fetch o).length ≤ K)
    (hempty : ∀ o, fetch o = [] → L.length ≤ o)
    (line_start : Nat) :
    get_log_lines fetch (L.length + 1) line_start
      = some ((L.drop line_start).map LogEntry.message) := by
  unfold get_log_lines
  rw [get_log_lines_go_spec L fetch hpre hempty L.length line_start [] (by omega)]
  simp

/-- Witness for C4: a three-line remote log fetched from offset 1 with
full-remainder pages (cap `K = 3`) yields the last two messages. -/
theorem c4_paging_complete_witness :
    get_log_lines
      (fun o => ([⟨0, "t0", "alpha"⟩, ⟨1, "t1", "beta"⟩, ⟨2, "t2", "PSEOF"⟩]
        : List LogEntry).drop o) 4 1 = some ["beta", "PSEOF"] := by
  have h := c4_paging_complete
    [⟨0, "t0", "alpha"⟩, ⟨1, "t1", "beta"⟩, ⟨2, "t2", "PSEOF"⟩] 3
    (fun o => ([⟨0, "t0", "alpha"⟩, ⟨1, "t1", "beta"⟩, ⟨2, "t2", "PSEOF"⟩]
      : List LogEntry).drop o)
    (fun o => (List.take_length _).symm)
    (fun o => by simp)
    (fun o ho => by simpa using List.drop_eq_nil_iff.mp ho)
    1
  simpa using h

/-- Scripted remote environment for one `follow_log` run: at poll
iteration `i`, `jobInfo i` is what `get_job_info` returns, `page i ls` is
the message list the inner `get_log_lines(job_id, line_start=ls)` call
returns, and `now i` is the clock instant at which `seconds_since_done`
is evaluated. -/
structure FollowEnv : Type where
  jobInfo : Nat → JobInfo
  page : Nat → Nat → List String
  now : Nat → Int

/-- The loop body of `follow_log` (pspace.py lines 364-384), stepped on
(fuel, iteration, line_start, last_log_line, previous job_info, number of
`get_log_lines` calls made, lines printed).  Per iteration: exit at the
top when the last fetched line is the sentinel; fetch the job record;
break out when the job is done and more than 20 time-units have passed
since it finished (`Outcome.crash` is the `KeyError` from a record with
no `state`, or no `dtFinished` while done); otherwise fetch new lines,
advance the offset by their count, remember the last line, print them,
and loop. -/
def follow_go (env : FollowEnv) :
    Nat → Nat → Nat → String → JobInfo → Nat → List String →
      Option (Outcome (JobInfo × String × Nat × List String))
  | 0, _, _, _, _, _, _ => Option.none
  | fuel + 1, i, ls, lastLine, prevJi, fetches, printed =>
    if lastLine = "PSEOF" then some (Outcome.ok (prevJi, lastLine, fetches, printed))
    else
      match job_done (env.jobInfo i) with
      | Option.none => some Outcome.crash
      | some d =>
        if d then
          match seconds_since_done (env.jobInfo i) (env.now i) with
          | Option.none => some Outcome.crash
          | some secs =>
            if 20 < secs then
              some (Outcome.ok (env.jobInfo i, lastLine, fetches, printed))
            else
              follow_go env fuel (i + 1) (ls + (env.page i ls).length)
                ((env.page i ls).getLastD lastLine) (env.jobInfo i)
                (fetches + 1) (printed ++ env.page i ls)
        else
          follow_go env fuel (i + 1) (ls + (env.page i ls).length)
            ((env.page i ls).getLastD lastLine) (env.jobInfo i)
            (fetches + 1) (printed ++ env.page i ls)

/-- `follow_log(job_id, line_start)`.  The Python `job_info` variable is
unassigned before the loop; since `last_log_line` starts as `""`, the
first iteration always executes and assigns it, so the `default` record
below is never returned (for positive fuel the initial guard is
definitionally false). -/
def follow_log (env : FollowEnv) (fuel : Nat) (line_start : Nat) :
    Option (Outcome (JobInfo × String × Nat × List String)) :=
  follow_go env fuel 0 line_start "" default 0 []

/-- One unfolding step of the follow loop. -/
theorem follow_go_succ (env : FollowEnv) (fuel i ls : Nat) (lastLine : String)
    (prevJi : JobInfo) (fetches : Nat) (printed : List String) :
    follow_go env (fuel + 1) i ls lastLine prevJi fetches printed =
      (if lastLine = "PSEOF" then some (Outcome.ok (prevJi, lastLine, fetches, printed))
      else
        match job_done (env.jobInfo i) with
        | Option.none => some Outcome.crash
        | some d =>
          if d then
            match seconds_since_done (env.jobInfo i) (env.now i) with
            | Option.none => some Outcome.crash
            | some secs =>
              if 20 < secs then
                some (Outcome.ok (env.jobInfo i, lastLine, fetches, printed))
              else
                follow_go env fuel (i + 1) (ls + (env.page i ls).length)
                  ((env.page i ls).getLastD lastLine) (env.jobInfo i)
                  (fetches + 1) (printed ++ env.page i ls)
          else
            follow_go env fuel (i + 1) (ls + (env.page i ls).length)
              ((env.page i ls).getLastD lastLine) (env.jobInfo i)
              (fetches + 1) (printed ++ env.page i ls)) := rfl

/-- A nonempty list's `getLastD` does not depend on the default. -/
theorem getLastD_of_ne_nil {α : Type} (l : List α) (h : l ≠ []) (d1 d2 : α) :
    l.getLastD d1 = l.getLastD d2 := by
  cases l with
  | nil => exact absurd rfl h
  | cons a as => rfl

/-- A normal exit of the follow loop happens only at the sentinel or at
the dead-man timeout. -/
theorem follow_go_exit (env : FollowEnv) :
    ∀ (fuel i ls : Nat) (lastLine : String) (prevJi : JobInfo) (fetches : Nat)
      (printed : List String) (ji : JobInfo) (ll : String) (f : Nat)
      (pr : List String),
      follow_go env fuel i ls lastLine prevJi fetches printed
        = some (Outcome.ok (ji, ll, f, pr)) →
      ll = "PSEOF"
      ∨ ∃ t s, ji = env.jobInfo t ∧ job_done ji = some true
          ∧ seconds_since_done ji (env.now t) = some s ∧ 20 < s := by
  intro fuel
  induction fuel with
  | zero =>
    intro i ls lastLine prevJi fetches printed ji ll f pr h
    simp [follow_go] at h
  | succ g ih =>
    intro i ls lastLine prevJi fetches printed ji ll f pr h
    by_cases hps : lastLine = "PSEOF"
    · simp only [follow_go, if_pos hps] at h
      simp only [Option.some.injEq, Outcome.ok.injEq, Prod.mk.injEq] at h
      left
      rw [← h.2.1]
      exact hps
    · simp only [follow_go, if_neg hps] at h
      cases hjd : job_done (env.jobInfo i) with
      | none => simp only [hjd] at h; simp at h
      | some d =>
        simp only [hjd] at h
        cases d with
        | false =>
          simp only [Bool.false_eq_true, if_false] at h
          exact ih _ _ _ _ _ _ _ _ _ _ h
        | true =>
          simp only [if_true] at h
          cases hss : seconds_since_done (env.jobInfo i) (env.now i) with
          | none => simp only [hss] at h; simp at h
          | some secs =>
            simp only [hss] at h
            by_cases h20 : 20 < secs
            · simp only [if_pos h20, Option.some.injEq, Outcome.ok.injEq,
                Prod.mk.injEq] at h
              obtain ⟨h1, h2, h3, h4⟩ := h
              subst h1
              right
              exact ⟨i, secs, rfl, hjd, hss, h20⟩
            · simp only [if_neg h20] at h
              exact ih _ _ _ _ _ _ _ _ _ _ h

/-- If every job record polled up to iteration `k` is well-formed (its
`state` is present and, when terminal, its `dtFinished` is present) and
the page fetched at iteration `k` ends with the sentinel, the follow loop
exits normally within `k + 2` iterations. -/
theorem follow_go_sentinel (env : FollowEnv) (k : Nat)
    (hwf : ∀ i, i ≤ k → job_done (env.jobInfo i) ≠ Option.none
      ∧ (job_done (env.jobInfo i) = some true →
          seconds_since_done (env.jobInfo i) (env.now i) ≠ Option.none))
    (hps : ∀ o, (env.page k o).getLastD "" = "PSEOF") :
    ∀ (n i ls : Nat) (lastLine : String) (prevJi : JobInfo) (fetches : Nat)
      (printed : List String), i + n = k →
      ∃ out, follow_go env (n + 2) i ls lastLine prevJi fetches printed
        = some (Outcome.ok out) := by
  intro n
  induction n with
  | zero =>
    intro i ls lastLine prevJi fetches printed hik
    have hik' : i = k := by omega
    subst hik'
    by_cases hps0 : lastLine = "PSEOF"
    · refine ⟨(prevJi, lastLine, fetches, printed), ?_⟩
      rw [show (0 : Nat) + 2 = 1 + 1 from rfl, follow_go_succ, if_pos hps0]
    · obtain ⟨hjd, hsec⟩ := hwf i (le_refl i)
      have hlast : (env.page i ls).getLastD lastLine = "PSEOF" := by
        have h1 := hps ls
        cases hp : env.page i ls with
        | nil => rw [hp] at h1; exact absurd h1 (by decide)
        | cons a l =>
          rw [hp] at h1
          rw [← h1]
          exact getLastD_of_ne_nil _ (by simp) _ _
      cases hj : job_done (env.jobInfo i) with
      | none => exact absurd hj hjd
      | some d =>
        cases d with
        | false =>
          refine ⟨(env.jobInfo i, "PSEOF", fetches + 1, printed ++ env.page i ls), ?_⟩
          rw [show (0 : Nat) + 2 = 1 + 1 from rfl, follow_go_succ, if_neg hps0]
          simp only [hj, Bool.false_eq_true, if_false]
          rw [show (1 : Nat) = 0 + 1 from rfl, follow_go_succ, hlast, if_pos rfl]
        | true =>
          cases hs : seconds_since_done (env.jobInfo i) (env.now i) with
          | none => exact absurd hs (hsec hj)
          | some secs =>
            by_cases h20 : 20 < secs
            · refine ⟨(env.jobInfo i, lastLine, fetches, printed), ?_⟩
              rw [show (0 : Nat) + 2 = 1 + 1 from rfl, follow_go_succ, if_neg hps0]
              simp only [hj, if_true, hs, if_pos h20]
            · refine ⟨(env.jobInfo i, "PSEOF", fetches + 1,
                printed ++ env.page i ls), ?_⟩
              rw [show (0 : Nat) + 2 = 1 + 1 from rfl, follow_go_succ, if_neg hps0]
              simp only [hj, if_true, hs, if_neg h20]
              rw [show (1 : Nat) = 0 + 1 from rfl, follow_go_succ, hlast, if_pos rfl]
  | succ m ih =>
    intro i ls lastLine prevJi fetches printed hik
    by_cases hps0 : lastLine = "PSEOF"
    · refine ⟨(prevJi, lastLine, fetches, printed), ?_⟩
      rw [show m + 1 + 2 = (m + 2) + 1 from rfl, follow_go_succ, if_pos hps0]
    · obtain ⟨hjd, hsec⟩ := hwf i (by omega)
      cases hj : job_done (env.jobInfo i) with
      | none => exact absurd hj hjd
      | some d =>
        cases d with
        | false =>
          obtain ⟨out, hout⟩ := ih (i + 1) (ls + (env.page i ls).length)
            ((env.page i ls).getLastD lastLine) (env.jobInfo i) (fetches + 1)
            (printed ++ env.page i ls) (by omega)
          refine ⟨out, ?_⟩
          rw [show m + 1 + 2 = (m + 2) + 1 from rfl, follow_go_succ, if_neg hps0]
          simp only [hj, Bool.false_eq_true, if_false]
          exact hout
        | true =>
          cases hs : seconds_since_done (env.jobInfo i) (env.now i) with
          | none => exact absurd hs (hsec hj)
          | some secs =>
            by_cases h20 : 20 < secs
            · refine ⟨(env.jobInfo i, lastLine, fetches, printed), ?_⟩
              rw [show m + 1 + 2 = (m + 2) + 1 from rfl, follow_go_succ, if_neg hps0]
              simp only [hj, if_true, hs, if_pos h20]
            · obtain ⟨out, hout⟩ := ih (i + 1) (ls + (env.page i ls).length)
                ((env.page i ls).getLastD lastLine) (env.jobInfo i) (fetches + 1)
                (printed ++ env.page i ls) (by omega)
              refine ⟨out, ?_⟩
              rw [show m + 1 + 2 = (m + 2) + 1 from rfl, follow_go_succ, if_neg hps0]
              simp only [hj, if_true, hs, if_neg h20]
              exact hout

/-- C2: follow-mode termination.  (i) Exactness: every normal exit of the
follow loop has either its last fetched line equal to the sentinel
`"PSEOF"`, or its returned record terminal with more than 20 time-units
elapsed since the record's finish timestamp.  (ii) Sentinel termination:
a scripted source whose page at iteration `k` ends with `"PSEOF"` makes
the loop exit normally within `k + 2` iterations, whatever the job states
(well-formed records assumed).  (iii) Dead-man termination: a job already
terminal with finish more than 20 units in the past makes the loop exit
on its first iteration, before fetching any lines. -/
theorem c2_follow_termination :
    (∀ (env : FollowEnv) (fuel i ls : Nat) (lastLine : String) (prevJi : JobInfo)
        (fetches : Nat) (printed : List String) (ji : JobInfo) (ll : String)
        (f : Nat) (pr : List String),
      follow_go env fuel i ls lastLine prevJi fetches printed
        = some (Outcome.ok (ji, ll, f, pr)) →
      ll = "PSEOF"
      ∨ ∃ t s, ji = env.jobInfo t ∧ job_done ji = some true
          ∧ seconds_since_done ji (env.now t) = some s ∧ 20 < s)
    ∧ (∀ (env : FollowEnv) (k ls : Nat),
      (∀ i, i ≤ k → job_done (env.jobInfo i) ≠ Option.none
        ∧ (job_done (env.jobInfo i) = some true →
            seconds_since_done (env.jobInfo i) (env.now i) ≠ Option.none)) →
      (∀ o, (env.page k o).getLastD "" = "PSEOF") →
      ∃ out, follow_log env (k + 2) ls = some (Outcome.ok out))
    ∧ (∀ (env : FollowEnv) (ls : Nat) (s : Int),
      job_done (env.jobInfo 0) = some true →
      seconds_since_done (env.jobInfo 0) (env.now 0) = some s →
      20 < s →
      ∀ fuel, follow_log env (fuel + 1) ls
        = some (Outcome.ok (env.jobInfo 0, "", 0, []))) := by
  refine ⟨fun env => follow_go_exit env, ?_, ?_⟩
  · intro env k ls hwf hps
    exact follow_go_sentinel env k hwf hps k 0 ls "" default 0 [] (by omega)
  · intro env ls s hjd hs h20 fuel
    simp [follow_log, follow_go, hjd, hs, h20]

/-- A concrete scripted environment: job always `Running`, the first
page is `["hello", "PSEOF"]`, later pages empty. -/
def c2Env : FollowEnv :=
  ⟨fun _ => ⟨"job1", some "Running", Option.none, Option.none⟩,
   fun i _ => if i = 0 then ["hello", "PSEOF"] else [],
   fun _ => 0⟩

/-- Witness for C2: on `c2Env` the follow loop exits normally within two
iterations after observing the sentinel. -/
theorem c2_follow_termination_witness :
    ∃ out, follow_log c2Env 2 0 = some (Outcome.ok out) := by
  refine c2_follow_termination.2.1 c2Env 0 0 ?_ ?_
  · intro i hi
    exact ⟨(by decide :
        job_done (⟨"job1", some "Running", Option.none, Option.none⟩ : JobInfo)
          ≠ Option.none),
      fun hcontra =>
        absurd hcontra
          (by decide :
            ¬ job_done (⟨"job1", some "Running", Option.none, Option.none⟩ : JobInfo)
              = some true)⟩
  · intro o
    rfl

/-- C10: unguarded dead-man check.  (i) A job record observed at the first
poll whose state is terminal but which lacks `dtFinished` makes
`follow_log` raise (`KeyError` on `'dtFinished'` inside
`seconds_since_done`), whatever the fuel.  (ii) The timeout branch is
safe under the precondition that every polled record has a `state` and,
when terminal, a `dtFinished`: the loop then never crashes. -/
theorem c10_deadman_keyerror :
    (∀ (env : FollowEnv) (ls fuel : Nat),
      job_done (env.jobInfo 0) = some true →
      (env.jobInfo 0).dtFinished = Option.none →
      follow_log env (fuel + 1) ls = some Outcome.crash)
    ∧ (∀ (env : FollowEnv),
      (∀ i, job_done (env.jobInfo i) ≠ Option.none
        ∧ (job_done (env.jobInfo i) = some true →
            (env.jobInfo i).dtFinished ≠ Option.none)) →
      ∀ (fuel i ls : Nat) (lastLine : String) (prevJi : JobInfo) (fetches : Nat)
        (printed : List String),
        follow_go env fuel i ls lastLine prevJi fetches printed
          ≠ some Outcome.crash) := by
  constructor
  · intro env ls fuel hjd hdt
    simp [follow_log, follow_go, hjd, seconds_since_done, hdt]
  · intro env hwf fuel
    induction fuel with
    | zero => intro i ls lastLine prevJi fetches printed; simp [follow_go]
    | succ g ih =>
      intro i ls lastLine prevJi fetches printed
      obtain ⟨hjd, hdt⟩ := hwf i
      by_cases hps : lastLine = "PSEOF"
      · simp [follow_go, hps]
      · cases hj : job_done (env.jobInfo i) with
        | none => exact absurd hj hjd
        | some d =>
          cases d with
          | false =>
            simp only [follow_go, if_neg hps, hj, Bool.false_eq_true, if_false]
            exact ih _ _ _ _ _ _
          | true =>
            cases hf : (env.jobInfo i).dtFinished with
            | none => exact absurd hf (hdt hj)
            | some fin =>
              have hs : seconds_since_done (env.jobInfo i) (env.now i)
                  = some (env.now i - fin) := by
                simp [seconds_since_done, hf]
              by_cases h20 : 20 < env.now i - fin
              · simp [follow_go, hps, hj, hs, h20]
              · simp only [follow_go, if_neg hps, hj, hs, if_true, if_neg h20]
                exact ih _ _ _ _ _ _

/-- A concrete record that is `Stopped` but carries no finish timestamp. -/
def c10Env : FollowEnv :=
  ⟨fun _ => ⟨"job2", some "Stopped", Option.none, Option.none⟩,
   fun _ _ => [], fun _ => 100⟩

/-- Witness for C10: on `c10Env` the follow loop raises on its first
iteration. -/
theorem c10_deadman_keyerror_witness :
    follow_log c10Env 1 0 = some Outcome.crash :=
  c10_deadman_keyerror.1 c10Env 0 0 (by decide) rfl

/-- Python `l[-t:]` for an integer `t`: for positive `t`, the last `t`
elements (all of them when `t` exceeds the length); for `t = 0`, `l[-0:]`
is `l[0:]`, the whole list; for negative `t`, `l[(-t):]`. -/
def pyTailSlice {α : Type} (l : List α) (t : Int) : List α :=
  if t ≤ 0 then l.drop (-t).toNat
  else l.drop (l.length - t.toNat)

/-- The waiting loop of `follow_job_state` (pspace.py lines 387-400):
while the job has not started, sleep and re-fetch the record (`fjs i` is
the record fetched at poll index `i`); each new record's `state` is read
for the change display (`Outcome.crash` is the `KeyError` on a record
without `state`). -/
def follow_job_state_go (fjs : Nat → JobInfo) :
    Nat → Nat → JobInfo → Option (Outcome JobInfo)
  | 0, _, _ => Option.none
  | fuel + 1, i, ji =>
    match job_not_started ji with
    | Option.none => some Outcome.crash
    | some false => some (Outcome.ok ji)
    | some true =>
      match (fjs i).state with
      | Option.none => some Outcome.crash
      | some _ => follow_job_state_go fjs fuel (i + 1) (fjs i)

/-- `follow_job_state(job_id)`: fetch the record (index 0 of `fjs`),
print its state (`KeyError` when absent), then wait for the job to
start. -/
def follow_job_state (fjs : Nat → JobInfo) (fuel : Nat) : Option (Outcome JobInfo) :=
  match (fjs 0).state with
  | Option.none => some Outcome.crash
  | some _ => follow_job_state_go fjs fuel 1 (fjs 0)

/-- Scripted environment for one `print_last_log_lines` run: `show_info`
is the initial `get_job_info(job_id)` result; `fjs` scripts the records
polled inside `follow_job_state`; `fetch` is the log source of the
snapshot `get_log_lines` call; `fenv` scripts the `follow_log` loop.
The `job_id` argument of the Python function only routes these remote
calls and the cosmetic `"Job: ..."` print, so it does not appear. -/
structure TailEnv : Type where
  show_info : JobInfo
  fjs : Nat → JobInfo
  fetch : Nat → List LogEntry
  fenv : FollowEnv

/-- Observable result of `print_last_log_lines`: the returned
`(job_info, total_log_lines)` pair, the log lines printed, and how many
`get_log_lines` calls were made. -/
structure PLLOut : Type where
  job_info : JobInfo
  total_log_lines : Option Nat
  printed : List String
  fetches : Nat

/-- `print_last_log_lines(job_id, tail_lines, line_start, follow)`
(pspace.py lines 403-444).  An error record returns immediately with
`total_log_lines = None`; otherwise the state line is printed (follow
mode first waits for the job to start), a started job gets one
`get_log_lines` call from `line_start` of which the last `tail_lines`
messages are printed (`0` prints them all, via the `[-tail_lines:]`
slice), and in follow mode, when the last fetched line is not already the
sentinel, `follow_log` continues from the advanced offset. -/
def print_last_log_lines (env : TailEnv) (fuel : Nat) (tail_lines : Int)
    (line_start : Nat) (follow : Bool) : Option (Outcome PLLOut) :=
  let job_info := env.show_info
  if job_info.error.isSome then
    some (Outcome.ok ⟨job_info, Option.none, [], 0⟩)
  else
    obind
      (if follow then follow_job_state env.fjs fuel
       else
         match job_info.state with
         | Option.none => some Outcome.crash
         | some _ => some (Outcome.ok job_info))
      (fun ji1 =>
        obind
          (match job_started ji1 with
           | Option.none => some Outcome.crash
           | some true =>
             match get_log_lines env.fetch fuel line_start with
             | Option.none => Option.none
             | some msgs =>
               some (Outcome.ok (msgs, some (line_start + msgs.length), 1))
           | some false => some (Outcome.ok (([] : List String), some 0, 0)))
          (fun x =>
            let log_lines := x.1
            let total := x.2.1
            let nfetch := x.2.2
            let printed := pyTailSlice log_lines tail_lines
            if follow ∧ log_lines.getLastD "" ≠ "PSEOF" then
              obind (follow_log env.fenv fuel (log_lines.length + line_start))
                (fun y =>
                  some (Outcome.ok ⟨y.1, total, printed ++ y.2.2.2, nfetch + y.2.2.1⟩))
            else some (Outcome.ok ⟨ji1, total, printed, nfetch⟩)))

/-- C8: snapshot-mode trailing count: for every started job and every
snapshot (non-follow) tail invocation, the operation makes exactly one
`get_log_lines` call fetching all available lines from `line_start`
(against an honest source over log `L`), prints exactly the last
`tail_lines` of the fetched lines (all of them when `tail_lines` is 0),
reports `line_start + fetched` as the new total, and returns without
consulting the follow environment, i.e. without waiting for the
`"PSEOF"` sentinel. -/
theorem c8_snapshot_tail (L : List LogEntry) (fetch : Nat → List LogEntry)
    (hpre : ∀ o, fetch o = (L.drop o).take (fetch o).length)
    (hempty : ∀ o, fetch o = [] → L.length ≤ o)
    (si : JobInfo) (fjs : Nat → JobInfo) (fenv : FollowEnv)
    (tail_lines : Int) (line_start : Nat)
    (herr : si.error = Option.none)
    (hst : job_started si = some true) :
    print_last_log_lines ⟨si, fjs, fetch, fenv⟩ (L.length + 1) tail_lines
        line_start false
      = some (Outcome.ok ⟨si, some (line_start + (L.drop line_start).length),
          pyTailSlice ((L.drop line_start).map LogEntry.message) tail_lines, 1⟩)
    ∧ (tail_lines = 0 →
        pyTailSlice ((L.drop line_start).map LogEntry.message) tail_lines
          = (L.drop line_start).map LogEntry.message)
    ∧ (0 < tail_lines →
        pyTailSlice ((L.drop line_start).map LogEntry.message) tail_lines
          = ((L.drop line_start).map LogEntry.message).drop
              (((L.drop line_start).map LogEntry.message).length
                - tail_lines.toNat)) := by
  have he : si.error.isSome = false := by rw [herr]; rfl
  obtain ⟨st, hsi⟩ : ∃ st, si.state = some st := by
    cases hs : si.state with
    | none => rw [job_started, job_not_started, hs] at hst; simp at hst
    | some st => exact ⟨st, rfl⟩
  have hget : get_log_lines fetch (L.length + 1) line_start
      = some ((L.drop line_start).map LogEntry.message) := by
    unfold get_log_lines
    rw [get_log_lines_go_spec L fetch hpre hempty L.length line_start [] (by omega)]
    simp
  refine ⟨?_, ?_, ?_⟩
  · simp [print_last_log_lines, he, hsi, hst, hget, obind]
  · intro h0
    subst h0
    simp [pyTailSlice]
  · intro hpos
    rw [pyTailSlice, if_neg (by omega)]

/-- A concrete snapshot environment: job `Running`, two remote log lines,
follow environment irrelevant. -/
def c8Env : TailEnv :=
  ⟨⟨"j3", some "Running", Option.none, Option.none⟩,
   fun _ => default,
   fun o => ([⟨0, "t0", "one"⟩, ⟨1, "t1", "two"⟩] : List LogEntry).drop o,
   ⟨fun _ => default, fun _ _ => [], fun _ => 0⟩⟩

/-- Witness for C8: tailing the last 1 line of a 2-line log in snapshot
mode prints `["two"]`, reports total 2, and makes one fetch. -/
theorem c8_snapshot_tail_witness :
    print_last_log_lines c8Env 3 1 0 false
      = some (Outcome.ok ⟨⟨"j3", some "Running", Option.none, Option.none⟩,
          some 2, ["two"], 1⟩) := by
  have h := (c8_snapshot_tail [⟨0, "t0", "one"⟩, ⟨1, "t1", "two"⟩]
    (fun o => ([⟨0, "t0", "one"⟩, ⟨1, "t1", "two"⟩] : List LogEntry).drop o)
    (fun o => (List.take_length _).symm)
    (fun o ho => by simpa using List.drop_eq_nil_iff.mp ho)
    ⟨"j3", some "Running", Option.none, Option.none⟩ (fun _ => default)
    ⟨fun _ => default, fun _ _ => [], fun _ => 0⟩ 1 0 rfl (by decide)).1
  simpa [c8Env, pyTailSlice] using h

/-- A Python `dict.update` on association lists: keys of `d` keep their
place with updated values, new keys of `u` are appended. -/
def dictUpdate (d u : Dict) : Dict :=
  d.map (fun kv =>
    match dlookup u kv.1 with
    | some v => (kv.1, v)
    | Option.none => kv)
  ++ u.filter (fun kv => (dlookup d kv.1).isNone)

/-- The persisted RunState file content written by `save_last_info`:
section `job_info` (the record's non-null fields) and section
`pspace_info` (`info_updated` plus the caller's extra fields). -/
structure SavedState : Type where
  job_info : Dict
  pspace_info : Dict

/-- `save_last_info(job_info, extra_info)` (pspace.py lines 495-515) as a
transformer of the RunState file contents (`prev`): when `get_yaml_cwd()`
finds no project config file, return without writing; otherwise overwrite
the file wholesale with the freshly built sections.  `now` is the
`info_updated` timestamp string. -/
def save_last_info (files : List (Option (Option Doc))) (prev : Option SavedState)
    (job_info : Dict) (extra_info : Dict) (now : String) : Option SavedState :=
  match get_yaml_cwd files with
  | Option.none => prev
  | some _ =>
    some ⟨job_info.filter (fun kv => match kv.2 with | Val.null => false | _ => true),
      dictUpdate [("info_updated", Val.str now)] extra_info⟩

/-- C7: RunState write gating invariant: when no project config marker
file exists at either search path (the working directory and its
`.pspace` subdirectory), the persisted RunState is never written — the
file keeps whatever content it had; and whenever it is written (a marker
was found and parsed), it is overwritten wholesale with the new
`job_info` (null fields dropped) and `pspace_info` sections, with no
merge with the prior content (the result does not depend on `prev`). -/
theorem c7_runstate_gating :
    (∀ (prev : Option SavedState) (job_info extra_info : Dict) (now : String),
      save_last_info [Option.none, Option.none] prev job_info extra_info now = prev)
    ∧ (∀ (files : List (Option (Option Doc))) (d : Doc),
      get_yaml_cwd files = some d →
      ∀ (prev : Option SavedState) (job_info extra_info : Dict) (now : String),
      save_last_info files prev job_info extra_info now
        = some ⟨job_info.filter
              (fun kv => match kv.2 with | Val.null => false | _ => true),
            dictUpdate [("info_updated", Val.str now)] extra_info⟩) := by
  constructor
  · intro prev ji ex now
    rfl
  · intro files d hd prev ji ex now
    simp [save_last_info, hd]

/-- Witness for C7: with a readable `pspace.yaml`, a record with one null
field and two extras is written wholesale (null dropped, extras appended
after `info_updated`), regardless of the prior file content. -/
theorem c7_runstate_gating_witness :
    save_last_info [some (some [("tail", [])])] Option.none
      [("id", Val.str "j1"), ("exitCode", Val.null)]
      [("total_log_lines", Val.int 5), ("last_job_id", Val.str "j1")] "2019-05-09"
      = some ⟨[("id", Val.str "j1")],
          [("info_updated", Val.str "2019-05-09"),
           ("total_log_lines", Val.int 5), ("last_job_id", Val.str "j1")]⟩ := by
  have h := c7_runstate_gating.2 [some (some [("tail", [])])] [("tail", [])] rfl
    Option.none [("id", Val.str "j1"), ("exitCode", Val.null)]
    [("total_log_lines", Val.int 5), ("last_job_id", Val.str "j1")] "2019-05-09"
  rw [h]
  rfl

/-- The `job_info` dict corresponding to a `JobInfo` record, as
`save_last_info` receives it: the fields the model carries, absent fields
simply not present, the `error` sub-record encoded as a two-element
list. -/
def jobInfoDict (ji : JobInfo) : Dict :=
  [("id", Val.str ji.id)]
    ++ (match ji.state with
        | some s => [("state", Val.str s)]
        | Option.none => [])
    ++ (match ji.dtFinished with
        | some f => [("dtFinished", Val.int f)]
        | Option.none => [])
    ++ (match ji.error with
        | some e => [("error", Val.list [Val.str e.1, Val.str e.2])]
        | Option.none => [])

/-- Observable result of the tail command from the
`print_last_log_lines` call onward (cli.py lines 226-240): the record and
total returned upward, whether `print_error` ran (with which error
sub-record), the RunState file after the command, and how many
`get_log_lines` calls were made. -/
structure CTOut : Type where
  job_info : JobInfo
  total_log_lines : Option Nat
  printed_error : Option (String × String)
  runstate : Option SavedState
  fetches : Nat

/-- `command_tail` after config resolution (cli.py lines 226-240): run
`print_last_log_lines`; when the returned record carries an `error`,
print it and return without saving; otherwise save the RunState with the
`total_log_lines` and `last_job_id` extras. -/
def command_tail_run (env : TailEnv) (files : List (Option (Option Doc)))
    (prev : Option SavedState) (now : String) (fuel : Nat) (job_id : String)
    (tail_lines : Int) (line_start : Nat) (follow : Bool) :
    Option (Outcome CTOut) :=
  obind (print_last_log_lines env fuel tail_lines line_start follow)
    (fun out =>
      if out.job_info.error.isSome then
        some (Outcome.ok ⟨out.job_info, out.total_log_lines, out.job_info.error,
          prev, out.fetches⟩)
      else
        some (Outcome.ok ⟨out.job_info, out.total_log_lines, Option.none,
          save_last_info files prev (jobInfoDict out.job_info)
            [("total_log_lines",
              match out.total_log_lines with
              | some n => Val.int (Int.ofNat n)
              | Option.none => Val.null),
             ("last_job_id", Val.str job_id)] now,
          out.fetches⟩))

/-- C5: error short-circuit: for every job whose initial `show(job_id)`
lookup returns an error record, the tail operation performs no log fetch
(zero `get_log_lines` calls) and no RunState write (the file keeps its
prior content), and returns the error record upward unmodified, whatever
the requested count, offset, or follow flag. -/
theorem c5_error_short_circuit (env : TailEnv)
    (files : List (Option (Option Doc))) (prev : Option SavedState) (now : String)
    (fuel : Nat) (job_id : String) (tail_lines : Int) (line_start : Nat)
    (follow : Bool) (e : String × String)
    (herr : env.show_info.error = some e) :
    command_tail_run env files prev now fuel job_id tail_lines line_start follow
      = some (Outcome.ok ⟨env.show_info, Option.none, some e, prev, 0⟩) := by
  have hs : env.show_info.error.isSome = true := by rw [herr]; rfl
  simp [command_tail_run, print_last_log_lines, hs, obind, herr]

/-- An environment whose initial `show` returns an error record. -/
def c5Env : TailEnv :=
  ⟨⟨"jerr", Option.none, Option.none, some ("404", "job not found")⟩,
   fun _ => default, fun _ => [],
   ⟨fun _ => default, fun _ _ => [], fun _ => 0⟩⟩

/-- Witness for C5: on `c5Env` the tail command returns the error record,
fetches nothing, and leaves the (absent) RunState file untouched. -/
theorem c5_error_short_circuit_witness :
    command_tail_run c5Env [Option.none, Option.none] Option.none "now" 3 "jerr"
        20 0 true
      = some (Outcome.ok ⟨c5Env.show_info, Option.none,
          some ("404", "job not found"), Option.none, 0⟩) :=
  c5_error_short_circuit c5Env [Option.none, Option.none] Option.none "now" 3
    "jerr" 20 0 true ("404", "job not found") rfl

end Pspace
